import Mathlib

/-!
# Verification of the gocbmgr node-removal and rebalance-orchestration core

A shallow embedding in Lean 4 of the pure decision logic of `couchbase.go`
(package `cbmgr`): host matching (`stripPort`, `strSliceContains`), OTP
identity resolution (`GetOTPNodes`), the `RemoveNodes` entry checks and its
rebalance polling loop, the health check (`healthy`, `getInfo`), the lazy
caches of `Info`/`Cluster`, and a discrete-time model of the `IsReady` /
`Healthy` select loops.

Network fetches are modelled as explicit inputs (an `Except` result or an
`Option` snapshot per poll): the Go code performs each remote read through a
boundary collaborator and all decision logic is a pure function of the
fetched values.
-/

namespace Cbmgr

/-- One cluster member as decoded from `/pools/default` (`type Node` in the
source). Only the fields that the functions modelled here ever read are
carried: `Hostname`, `OTPNode`, `Status`, `ThisNode`; the remaining JSON
fields of the Go struct are never consulted by this logic. -/
structure Node where
  hostname : String
  otpNode : String
  status : String
  thisNode : Bool
deriving DecidableEq

/-- Cluster identity decoded from `/pools` (`type Cluster` in the source). -/
structure Cluster where
  isAdminCreds : Bool
  isEnterprise : Bool
  uuid : String
deriving DecidableEq

/-- Error taxonomy of the modelled operations. Each constructor corresponds
to one `fmt.Errorf`/propagated error site of the source; the Go code carries
these as strings. -/
inductive CbError where
  /-- a failed remote read, carrying the transport error text -/
  | readFailed (msg : String)
  /-- `"Unable to get OTP name for %+v"` in `GetOTPNodes` -/
  | missingIdentity (hostname : String)
  /-- `"Some nodes specified to be removed are not part of the cluster"` -/
  | incompleteMatch
  /-- `"Node hasn't joined the cluster yet"` in `healthy` -/
  | notJoined
  /-- `"No node info found"` in `getInfo` -/
  | selfNotFound
  /-- `"status of node is '%s', expected 'healthy'"` in `healthy` -/
  | badStatus (got : String)
deriving DecidableEq

/-- `strings.Split s sep` for a one-character separator, on the character
list of the string: splits at every occurrence of `sep`, keeping empty
fields, and is never empty. -/
def splitOnChar (sep : Char) : List Char → List (List Char)
  | [] => [[]]
  | c :: rest =>
    let r := splitOnChar sep rest
    if c = sep then [] :: r
    else (c :: r.headD []) :: r.tail

/-- `stripPort` (couchbase.go:87-89): `strings.Split(str, ":")[0]`, the part
of the string before the first colon. -/
def stripPort (s : String) : String :=
  String.mk ((splitOnChar ':' s.data).headD [])

/-- `strSliceContains` (couchbase.go:78-85): does any element of `slice`
match `item` after both are stripped of their port suffix? -/
def strSliceContains (slice : List String) (item : String) : Bool :=
  slice.any (fun elem => stripPort item == stripPort elem)

/-- `splitOnChar` never returns the empty list. -/
theorem splitOnChar_ne_nil (sep : Char) (l : List Char) :
    splitOnChar sep l ≠ [] := by
  cases l with
  | nil => simp [splitOnChar]
  | cons c rest =>
    simp only [splitOnChar]
    split <;> simp

/-- The first field of a single-character split is the longest prefix free of
the separator. -/
theorem splitOnChar_head (sep : Char) (l : List Char) :
    (splitOnChar sep l).headD [] = l.takeWhile (fun c => ¬(c = sep)) := by
  induction l with
  | nil => simp [splitOnChar]
  | cons c rest ih =>
    by_cases h : c = sep
    · simp [splitOnChar, List.takeWhile, h]
    · have hstep : splitOnChar sep (c :: rest) =
          (c :: (splitOnChar sep rest).headD []) :: (splitOnChar sep rest).tail := by
        simp [splitOnChar, h]
      rw [hstep, List.headD_cons, ih, List.takeWhile_cons_of_pos (by simp [h])]

/-- `stripPort` returns exactly the characters of its argument before the
first `':'`. -/
theorem stripPort_eq_takeWhile (s : String) :
    stripPort s = String.mk (s.data.takeWhile (fun c => ¬(c = ':'))) := by
  rw [stripPort, splitOnChar_head]

/-- The per-node loop of `GetOTPNodes` (couchbase.go:206-215): walk the
topology snapshot; a node with an empty `OTPNode` aborts with the
missing-identity error; otherwise its handle joins `outAllNodes`, and also
`outEjectNodes` when its hostname matches an address of `ejectNodes`. -/
def otpLoop (ejectNodes : List String) : List Node → Except CbError (List String × List String)
  | [] => .ok ([], [])
  | node :: rest =>
    if node.otpNode = "" then .error (.missingIdentity node.hostname)
    else
      match otpLoop ejectNodes rest with
      | .error e => .error e
      | .ok (ej, all) =>
        .ok ((if strSliceContains ejectNodes node.hostname then node.otpNode :: ej else ej),
          node.otpNode :: all)

/-- `GetOTPNodes` (couchbase.go:199-218), applied to the topology snapshot
`nodes` returned by the `c.Nodes()` read. The `failoverNode` and `reAddNode`
parameters are bound but never read by the source, and the corresponding
result lists are never appended to. -/
def GetOTPNodes (nodes : List Node) (ejectNodes failoverNode reAddNode : List String) :
    Except CbError (List String × List String × List String × List String) :=
  match otpLoop ejectNodes nodes with
  | .error e => .error e
  | .ok (ej, all) => .ok (ej, [], [], all)

/-- Outcome of `RemoveNodes` (couchbase.go:124-137) up to the decision
whether the `/controller/rebalance` trigger is issued. -/
inductive RemoveOutcome where
  /-- `GetOTPNodes` returned an error, which `RemoveNodes` propagates -/
  | resolveFailed (e : CbError)
  /-- `"Some nodes specified to be removed are not part of the cluster"` -/
  | incompleteMatch
  /-- `c.Rebalance(allNodes, ejectNodes)` is called with these arguments -/
  | trigger (knownNodes ejectedNodes : List String)
deriving DecidableEq

/-- The entry checks of `RemoveNodes` (couchbase.go:124-137): resolve OTP
identities, compare the resolved eject count with the requested count, and
either stop with an error or issue the rebalance trigger. -/
def RemoveNodesTrigger (nodes : List Node) (removeNodes : List String) : RemoveOutcome :=
  match GetOTPNodes nodes removeNodes [] [] with
  | .error e => .resolveFailed e
  | .ok (ejectNodes, _, _, allNodes) =>
    if ejectNodes.length ≠ removeNodes.length then .incompleteMatch
    else .trigger allNodes ejectNodes

/-- Example topology members used as concrete inputs. -/
def nodeA : Node := { hostname := "node1", otpNode := "ns_1@node1", status := "healthy", thisNode := true }

/-- Second example topology member. -/
def nodeB : Node := { hostname := "node2", otpNode := "ns_1@node2", status := "healthy", thisNode := false }

/-- Third example topology member, still warming up. -/
def nodeC : Node := { hostname := "node3", otpNode := "ns_1@node3", status := "warmup", thisNode := false }

/-- On a topology whose handles are all present, `otpLoop` succeeds and
returns the matched handles and all handles, in topology order. -/
theorem otpLoop_ok (ejectNodes : List String) (nodes : List Node)
    (h : ∀ nd ∈ nodes, nd.otpNode ≠ "") :
    otpLoop ejectNodes nodes =
      .ok ((nodes.filter (fun nd => strSliceContains ejectNodes nd.hostname)).map Node.otpNode,
        nodes.map Node.otpNode) := by
  induction nodes with
  | nil => rfl
  | cons nd rest ih =>
    have h1 : ¬(nd.otpNode = "") := h nd (by simp)
    have h2 : ∀ x ∈ rest, x.otpNode ≠ "" := fun x hx => h x (by simp [hx])
    simp only [otpLoop, if_neg h1, ih h2, List.filter_cons, List.map_cons]
    by_cases hc : strSliceContains ejectNodes nd.hostname <;> simp [hc]

/-- A topology containing a node with an empty handle makes `otpLoop` fail
with a missing-identity error. -/
theorem otpLoop_error (ejectNodes : List String) (nodes : List Node)
    (h : ∃ nd ∈ nodes, nd.otpNode = "") :
    ∃ hst, otpLoop ejectNodes nodes = .error (.missingIdentity hst) := by
  induction nodes with
  | nil => simp at h
  | cons nd rest ih =>
    by_cases h0 : nd.otpNode = ""
    · exact ⟨nd.hostname, by simp [otpLoop, h0]⟩
    · have hrest : ∃ x ∈ rest, x.otpNode = "" := by
        obtain ⟨x, hx, hx0⟩ := h
        rcases List.mem_cons.mp hx with heq | hmem
        · exact absurd (heq ▸ hx0) h0
        · exact ⟨x, hmem, hx0⟩
      obtain ⟨hst, he⟩ := ih hrest
      exact ⟨hst, by simp [otpLoop, h0, he]⟩

/-- Every handle in `otpLoop`'s eject list also occurs in its all list. -/
theorem otpLoop_subset (ejectNodes : List String) (nodes : List Node) :
    ∀ ej all, otpLoop ejectNodes nodes = .ok (ej, all) → ∀ x ∈ ej, x ∈ all := by
  induction nodes with
  | nil =>
    intro ej all h x hx
    simp only [otpLoop, Except.ok.injEq, Prod.mk.injEq] at h
    rw [← h.1] at hx
    simp at hx
  | cons nd rest ih =>
    intro ej all h x hx
    by_cases h0 : nd.otpNode = ""
    · simp [otpLoop, h0] at h
    · simp only [otpLoop, if_neg h0] at h
      cases hrec : otpLoop ejectNodes rest with
      | error e => rw [hrec] at h; simp at h
      | ok p =>
        obtain ⟨ej', all'⟩ := p
        rw [hrec] at h
        simp only [Except.ok.injEq, Prod.mk.injEq] at h
        obtain ⟨hej, hall⟩ := h
        subst hall
        rw [← hej] at hx
        by_cases hc : strSliceContains ejectNodes nd.hostname
        · rw [if_pos hc] at hx
          rcases List.mem_cons.mp hx with heq | hmem
          · simp [heq]
          · exact List.mem_cons_of_mem _ (ih ej' all' hrec x hmem)
        · rw [if_neg hc] at hx
          exact List.mem_cons_of_mem _ (ih ej' all' hrec x hx)

/-- C4: host matching used by identity resolution and the removal loop is
port-insensitive: two strings match under the code's comparison exactly when
their substrings before the first ':' are equal; in particular the address
"node1:8091" and the address "node1" both resolve against a topology entry
whose hostname is "node1". -/
theorem claim_C4_port_insensitive (a b : String) :
    ((stripPort a == stripPort b) = true ↔
      a.data.takeWhile (fun c => ¬(c = ':')) = b.data.takeWhile (fun c => ¬(c = ':')))
    ∧ strSliceContains ["node1"] "node1:8091" = true
    ∧ strSliceContains ["node1"] "node1" = true := by
  refine ⟨?_, by decide, by decide⟩
  rw [beq_iff_eq, stripPort_eq_takeWhile, stripPort_eq_takeWhile]
  constructor
  · intro h
    injection h
  · intro h
    rw [h]

/-- Witness for C4 at "node1:8091" and "node1". -/
theorem claim_C4_witness :
    "node1:8091".data.takeWhile (fun c => ¬(c = ':')) =
      "node1".data.takeWhile (fun c => ¬(c = ':')) :=
  (claim_C4_port_insensitive "node1:8091" "node1").1.mp (by decide)

/-- C7: whenever `GetOTPNodes` succeeds, the returned eject-handle list is a
subset of the returned all-handle list. -/
theorem claim_C7_eject_subset_all (nodes : List Node)
    (ejectNodes failoverNode reAddNode ej f r allNodes : List String)
    (h : GetOTPNodes nodes ejectNodes failoverNode reAddNode = .ok (ej, f, r, allNodes)) :
    ∀ x ∈ ej, x ∈ allNodes := by
  unfold GetOTPNodes at h
  cases hrec : otpLoop ejectNodes nodes with
  | error e =>
    rw [hrec] at h
    simp at h
  | ok p =>
    obtain ⟨ej', all'⟩ := p
    rw [hrec] at h
    simp only [Except.ok.injEq, Prod.mk.injEq] at h
    obtain ⟨h1, _, _, h4⟩ := h
    subst h1
    subst h4
    exact otpLoop_subset ejectNodes nodes _ _ hrec

/-- Witness for C7: a two-node topology with one node being removed. -/
theorem claim_C7_witness : "ns_1@node2" ∈ ["ns_1@node1", "ns_1@node2"] :=
  claim_C7_eject_subset_all [nodeA, nodeB] ["node2"] [] []
    ["ns_1@node2"] [] [] ["ns_1@node1", "ns_1@node2"] (by rfl) "ns_1@node2" (by decide)

/-- C9: a topology node with an empty internal OTP handle makes
`GetOTPNodes` abort entirely with a missing-identity error; no partial lists
are returned as a successful result. -/
theorem claim_C9_missing_identity_aborts (nodes : List Node)
    (ejectNodes failoverNode reAddNode : List String)
    (h : ∃ nd ∈ nodes, nd.otpNode = "") :
    ∃ hst, GetOTPNodes nodes ejectNodes failoverNode reAddNode =
      .error (.missingIdentity hst) := by
  obtain ⟨hst, he⟩ := otpLoop_error ejectNodes nodes h
  exact ⟨hst, by simp [GetOTPNodes, he]⟩

/-- Witness for C9: a topology whose second node has not finished joining. -/
theorem claim_C9_witness :
    ∃ hst, GetOTPNodes
      [nodeA, { hostname := "node4", otpNode := "", status := "healthy", thisNode := false }]
      ["node1"] [] [] = .error (.missingIdentity hst) :=
  claim_C9_missing_identity_aborts _ _ _ _ (by decide)

/-- C10: `GetOTPNodes` ignores its `failoverNode` and `reAddNode` parameters
entirely: the result does not depend on them, and on success the returned
failover and re-add lists are always empty. -/
theorem claim_C10_failover_params_ignored (nodes : List Node)
    (ejectNodes fo ra fo2 ra2 : List String) :
    GetOTPNodes nodes ejectNodes fo ra = GetOTPNodes nodes ejectNodes fo2 ra2
    ∧ (∀ ej f r allNodes, GetOTPNodes nodes ejectNodes fo ra = .ok (ej, f, r, allNodes) →
        f = [] ∧ r = []) := by
  refine ⟨rfl, ?_⟩
  intro ej f r allNodes h
  unfold GetOTPNodes at h
  cases hrec : otpLoop ejectNodes nodes with
  | error e =>
    rw [hrec] at h
    simp at h
  | ok p =>
    obtain ⟨ej', all'⟩ := p
    rw [hrec] at h
    simp only [Except.ok.injEq, Prod.mk.injEq] at h
    exact ⟨h.2.1.symm, h.2.2.1.symm⟩

/-- Witness for C10 at a concrete topology and distinct parameter values. -/
theorem claim_C10_witness :
    GetOTPNodes [nodeA] ["node1"] ["fo"] ["ra"] = GetOTPNodes [nodeA] ["node1"] [] []
    ∧ (([] : List String) = [] ∧ ([] : List String) = []) := by
  have h := claim_C10_failover_params_ignored [nodeA] ["node1"] ["fo"] ["ra"] [] []
  exact ⟨h.1, h.2 ["ns_1@node1"] [] [] ["ns_1@node1"] (by rfl)⟩

/-- `strSliceContains` holds exactly when the stripped item occurs among the
stripped slice elements. -/
theorem strSliceContains_iff (slice : List String) (item : String) :
    strSliceContains slice item = true ↔ stripPort item ∈ slice.map stripPort := by
  simp only [strSliceContains, List.any_eq_true, beq_iff_eq, List.mem_map]
  exact ⟨fun ⟨e, he, hs⟩ => ⟨e, he, hs.symm⟩, fun ⟨e, he, hs⟩ => ⟨e, he, hs.symm⟩⟩

/-- Bool-level form of `strSliceContains_iff`. -/
theorem strSliceContains_eq (slice : List String) (item : String) :
    strSliceContains slice item = decide (stripPort item ∈ slice.map stripPort) := by
  by_cases h : stripPort item ∈ slice.map stripPort
  · rw [(strSliceContains_iff slice item).mpr h, decide_eq_true h]
  · rw [decide_eq_false h]
    by_contra hne
    exact h ((strSliceContains_iff slice item).mp (Bool.of_not_eq_false hne))

/-- Counting argument behind the `len(ejectNodes) == len(removeNodes)` check
of `RemoveNodes` (couchbase.go:130): when the port-stripped hostnames of the
topology and the port-stripped requested addresses are each pairwise
distinct, the number of topology nodes matching some requested address
equals the number of requested addresses exactly when every requested
address matches some node. -/
theorem matched_count_eq_iff (nodes : List Node) (L : List String)
    (hN : (nodes.map (fun nd => stripPort nd.hostname)).Nodup)
    (hL : (L.map stripPort).Nodup) :
    (nodes.filter (fun nd => strSliceContains L nd.hostname)).length = L.length ↔
      ∀ a ∈ L, ∃ nd ∈ nodes, stripPort a = stripPort nd.hostname := by
  classical
  have hpred : (fun nd => strSliceContains L nd.hostname)
      = (fun nd : Node => decide (stripPort nd.hostname ∈ L.map stripPort)) := by
    funext nd
    exact strSliceContains_eq L nd.hostname
  have hlen : (nodes.filter (fun nd => strSliceContains L nd.hostname)).length
      = ((nodes.map (fun nd => stripPort nd.hostname)).filter
          (fun x => decide (x ∈ L.map stripPort))).length := by
    rw [hpred, List.filter_map, List.length_map]
    rfl
  have hmain : ((nodes.map (fun nd => stripPort nd.hostname)).filter
        (fun x => decide (x ∈ L.map stripPort))).length = (L.map stripPort).length ↔
      ∀ x ∈ L.map stripPort, x ∈ nodes.map (fun nd => stripPort nd.hostname) := by
    have hFnodup := hN.filter (fun x => decide (x ∈ L.map stripPort))
    rw [← List.toFinset_card_of_nodup hFnodup, ← List.toFinset_card_of_nodup hL,
      List.toFinset_filter]
    have hfc : (nodes.map (fun nd => stripPort nd.hostname)).toFinset.filter
          (fun x => decide (x ∈ L.map stripPort))
        = (nodes.map (fun nd => stripPort nd.hostname)).toFinset ∩ (L.map stripPort).toFinset := by
      rw [← Finset.filter_mem_eq_inter]
      apply Finset.filter_congr
      intro x _
      simp [List.mem_toFinset]
    rw [hfc]
    constructor
    · intro hcard x hx
      have heq : (nodes.map (fun nd => stripPort nd.hostname)).toFinset ∩
            (L.map stripPort).toFinset = (L.map stripPort).toFinset :=
        Finset.eq_of_subset_of_card_le Finset.inter_subset_right (le_of_eq hcard.symm)
      have hx2 : x ∈ (nodes.map (fun nd => stripPort nd.hostname)).toFinset ∩
          (L.map stripPort).toFinset := by
        rw [heq]
        exact List.mem_toFinset.mpr hx
      exact List.mem_toFinset.mp (Finset.mem_inter.mp hx2).1
    · intro hsub
      rw [Finset.inter_eq_right.mpr]
      intro x hx
      exact List.mem_toFinset.mpr (hsub x (List.mem_toFinset.mp hx))
  have hforall : (∀ x ∈ L.map stripPort, x ∈ nodes.map (fun nd => stripPort nd.hostname)) ↔
      ∀ a ∈ L, ∃ nd ∈ nodes, stripPort a = stripPort nd.hostname := by
    constructor
    · intro h a ha
      have hm := h (stripPort a) (List.mem_map.mpr ⟨a, ha, rfl⟩)
      obtain ⟨nd, hnd, heq⟩ := List.mem_map.mp hm
      exact ⟨nd, hnd, heq.symm⟩
    · intro h x hx
      obtain ⟨a, ha, rfl⟩ := List.mem_map.mp hx
      obtain ⟨nd, hnd, heq⟩ := h a ha
      exact List.mem_map.mpr ⟨nd, hnd, heq.symm⟩
  rw [hlen, ← hforall, ← hmain, List.length_map]

/-- C2 fails as stated: with the request list `["node1", "node1:8091"]`
against the single-node topology `[nodeA]` (hostname "node1"), every
requested address matches some node of the topology, yet `RemoveNodes`
returns the incomplete-match error and the rebalance trigger is not
issued: two distinct addresses resolve to the same node, so the resolved
eject list has length 1 ≠ 2. -/
theorem claim_C2_counterexample :
    (∀ a ∈ ["node1", "node1:8091"], ∃ nd ∈ [nodeA], stripPort a = stripPort nd.hostname)
    ∧ RemoveNodesTrigger [nodeA] ["node1", "node1:8091"] = .incompleteMatch := by
  exact ⟨by decide, rfl⟩

/-- C2 (amended): assume every topology node carries an OTP handle, the
port-stripped topology hostnames are pairwise distinct, and the
port-stripped requested addresses are pairwise distinct. Then if every
requested address matches some node, the resolved eject list has length
`len(L)` and the rebalance trigger is issued; otherwise `RemoveNodes` stops
with the incomplete-match error and the trigger is never issued. -/
theorem claim_C2_amended (nodes : List Node) (L : List String)
    (hOtp : ∀ nd ∈ nodes, nd.otpNode ≠ "")
    (hN : (nodes.map (fun nd => stripPort nd.hostname)).Nodup)
    (hL : (L.map stripPort).Nodup) :
    ((∀ a ∈ L, ∃ nd ∈ nodes, stripPort a = stripPort nd.hostname) →
      RemoveNodesTrigger nodes L =
        .trigger (nodes.map Node.otpNode)
          ((nodes.filter (fun nd => strSliceContains L nd.hostname)).map Node.otpNode)
      ∧ ((nodes.filter (fun nd => strSliceContains L nd.hostname)).map Node.otpNode).length
          = L.length)
    ∧ ((¬ ∀ a ∈ L, ∃ nd ∈ nodes, stripPort a = stripPort nd.hostname) →
      RemoveNodesTrigger nodes L = .incompleteMatch) := by
  have hG : GetOTPNodes nodes L [] [] =
      .ok ((nodes.filter (fun nd => strSliceContains L nd.hostname)).map Node.otpNode, [], [],
        nodes.map Node.otpNode) := by
    simp [GetOTPNodes, otpLoop_ok L nodes hOtp]
  have hlen : ((nodes.filter (fun nd => strSliceContains L nd.hostname)).map Node.otpNode).length
      = (nodes.filter (fun nd => strSliceContains L nd.hostname)).length :=
    List.length_map _ _
  constructor
  · intro hall
    have hcount := (matched_count_eq_iff nodes L hN hL).mpr hall
    refine ⟨?_, by rw [hlen, hcount]⟩
    simp [RemoveNodesTrigger, hG, hlen, hcount]
  · intro hnall
    have hcount : ¬((nodes.filter (fun nd => strSliceContains L nd.hostname)).length = L.length) :=
      fun h => hnall ((matched_count_eq_iff nodes L hN hL).mp h)
    simp [RemoveNodesTrigger, hG, hlen, hcount]

/-- Witness for the amended C2: removing "node2:8091" from the three-node
topology issues the trigger with all three handles known and one ejected;
removing the unknown "nodeZ" stops with the incomplete-match error. -/
theorem claim_C2_witness :
    RemoveNodesTrigger [nodeA, nodeB, nodeC] ["node2:8091"] =
      .trigger ["ns_1@node1", "ns_1@node2", "ns_1@node3"] ["ns_1@node2"]
    ∧ RemoveNodesTrigger [nodeA, nodeB, nodeC] ["nodeZ"] = .incompleteMatch := by
  have h1 := (claim_C2_amended [nodeA, nodeB, nodeC] ["node2:8091"]
    (by decide) (by decide) (by decide)).1 (by decide)
  have h2 := (claim_C2_amended [nodeA, nodeB, nodeC] ["nodeZ"]
    (by decide) (by decide) (by decide)).2 (by decide)
  exact ⟨h1.1, h2⟩

/-- The rebalance-status snapshot polled by `c.RebalanceStatus()` inside
`RemoveNodes`. The struct itself is declared outside this source file; per
the spec it carries a recommended poll-retry interval and the node handles
still participating in the rebalance, which is exactly how couchbase.go
lines 145-161 consume it. `recommendedRefreshPeriodNs` carries the interval
already converted to nanoseconds, the value of
`int64(status.RecommendedRefreshPeriod * float64(time.Second))`
(couchbase.go:151). -/
structure RebalanceStatus where
  recommendedRefreshPeriodNs : Int
  nodes : List String
deriving DecidableEq

/-- `minSleep = time.Second * 2` (couchbase.go:139), in nanoseconds. -/
def minSleepNs : Int := 2000000000

/-- The fixed `500 * time.Millisecond` backoff after a failed status poll
(couchbase.go:147), in nanoseconds. -/
def failSleepNs : Int := 500000000

/-- The sleep computed from a successful status poll (couchbase.go:151-154):
the recommended interval, floored at the 2-second minimum. -/
def recSleep (status : RebalanceStatus) : Int :=
  if status.recommendedRefreshPeriodNs < minSleepNs then minSleepNs
  else status.recommendedRefreshPeriodNs

/-- What one iteration of the removal polling loop observes: the result of
the `c.RebalanceStatus()` poll and, when reached, the result of the
`c.Nodes()` re-read (`none` models a failed read). -/
structure PollInput where
  status : Option RebalanceStatus
  nodesRead : Option (List Node)
deriving DecidableEq

/-- State of the removal polling loop between iterations: still polling
(carrying the sleep to perform before the next poll and the
`nodeInClusterCount` counter), finished, or failed stuck. -/
inductive PollState where
  | running (sleepNs : Int) (nodeInClusterCount : Nat)
  | done
  | stuck
deriving DecidableEq

/-- One iteration of the `RemoveNodes` polling loop (couchbase.go:142-193):
a failed status poll sets the 500 ms backoff and continues; an ejected
handle active in the status resets the counter and continues; a failed node
re-read continues with the counter unchanged; an ejected handle still in
the node list increments the counter, failing stuck when the counter
already exceeds 10; otherwise the rebalance is finished. -/
def pollStep (ejectNodes : List String) (inp : PollInput) : PollState → PollState
  | .running _ cnt =>
    match inp.status with
    | none => .running failSleepNs cnt
    | some status =>
      let sleep := recSleep status
      if ejectNodes.any (fun node => strSliceContains status.nodes node) then .running sleep 0
      else
        match inp.nodesRead with
        | none => .running sleep cnt
        | some nodes =>
          if nodes.any (fun node => strSliceContains ejectNodes node.otpNode) then
            if cnt > 10 then .stuck
            else .running sleep (cnt + 1)
          else .done
  | s => s

/-- The polling loop run over a finite trace of poll observations. -/
def pollRun (ejectNodes : List String) (inputs : List PollInput) (s : PollState) : PollState :=
  inputs.foldl (fun st inp => pollStep ejectNodes inp st) s

/-- A poll makes the "no ejected handle active in the rebalance status, but
an ejected handle still present in the freshly read node list"
observation. -/
def stillPresentObs (ejectNodes : List String) (inp : PollInput) : Bool :=
  match inp.status, inp.nodesRead with
  | some status, some nodes =>
    !(ejectNodes.any (fun node => strSliceContains status.nodes node)) &&
      nodes.any (fun node => strSliceContains ejectNodes node.otpNode)
  | _, _ => false

/-- The stuck state is absorbing. -/
theorem pollRun_stuck (ejectNodes : List String) (inputs : List PollInput) :
    pollRun ejectNodes inputs .stuck = .stuck := by
  induction inputs with
  | nil => rfl
  | cons i rest ih => simpa [pollRun, List.foldl_cons, pollStep] using ih

/-- A still-present observation steps the loop to stuck when the counter
already exceeds 10, and otherwise increments the counter. -/
theorem pollStep_obs (ejectNodes : List String) (inp : PollInput) (s : Int) (c : Nat)
    (h : stillPresentObs ejectNodes inp = true) :
    ∃ status, inp.status = some status ∧
      pollStep ejectNodes inp (.running s c) =
        (if c > 10 then .stuck else .running (recSleep status) (c + 1)) := by
  obtain ⟨os, onr⟩ := inp
  cases os with
  | none => simp [stillPresentObs] at h
  | some status =>
    cases onr with
    | none => simp [stillPresentObs] at h
    | some nodes =>
      simp only [stillPresentObs, Bool.and_eq_true, Bool.not_eq_true'] at h
      exact ⟨status, rfl, by simp [pollStep, h.1, h.2]⟩

/-- Over a trace consisting only of still-present observations, the loop
reaches stuck exactly when the counter would pass 11. -/
theorem pollRun_obs_stuck_iff (ejectNodes : List String) (inputs : List PollInput)
    (hobs : ∀ inp ∈ inputs, stillPresentObs ejectNodes inp = true) :
    ∀ c, c ≤ 11 → ∀ s, (pollRun ejectNodes inputs (.running s c) = .stuck ↔
      12 ≤ c + inputs.length) := by
  induction inputs with
  | nil =>
    intro c hc s
    simp [pollRun]
    omega
  | cons i rest ih =>
    intro c hc s
    have hi := hobs i (by simp)
    have hrest : ∀ inp ∈ rest, stillPresentObs ejectNodes inp = true :=
      fun inp hm => hobs inp (by simp [hm])
    obtain ⟨status, -, hstep⟩ := pollStep_obs ejectNodes i s c hi
    have hrun : pollRun ejectNodes (i :: rest) (.running s c)
        = pollRun ejectNodes rest (pollStep ejectNodes i (.running s c)) := rfl
    by_cases hgt : c > 10
    · rw [hrun, hstep, if_pos hgt, pollRun_stuck]
      simp only [List.length_cons]
      exact ⟨fun _ => by omega, fun _ => trivial⟩
    · rw [hrun, hstep, if_neg hgt]
      rw [ih hrest (c + 1) (by omega) (recSleep status)]
      simp only [List.length_cons]
      omega

/-- C1 fails as stated: eleven consecutive still-present observations are
"more than 10", yet the loop has not failed — `nodeInClusterCount` is
compared against 10 before being incremented, so the failure only fires on
the twelfth consecutive observation. -/
theorem claim_C1_counterexample :
    (∀ inp ∈ List.replicate 11
        ({ status := some { recommendedRefreshPeriodNs := 0, nodes := [] },
           nodesRead := some [nodeA] } : PollInput),
      stillPresentObs ["ns_1@node1"] inp = true)
    ∧ 10 < 11
    ∧ pollRun ["ns_1@node1"]
        (List.replicate 11
          { status := some { recommendedRefreshPeriodNs := 0, nodes := [] },
            nodesRead := some [nodeA] })
        (.running 0 0) ≠ .stuck := by
  exact ⟨by decide, by decide, by decide⟩

/-- C1 (amended): starting from a zero counter, a run of consecutive
still-present observations drives the loop to the stuck-removal failure
exactly when the run is longer than 11 polls — the failure fires on the
twelfth consecutive observation and never on 11 or fewer — and any poll in
which an ejected handle appears in the rebalance status's active set resets
the counter to zero. -/
theorem claim_C1_amended (ejectNodes : List String) (inputs : List PollInput) (s : Int)
    (hobs : ∀ inp ∈ inputs, stillPresentObs ejectNodes inp = true) :
    (pollRun ejectNodes inputs (.running s 0) = .stuck ↔ 12 ≤ inputs.length)
    ∧ (∀ status nr s2 c,
        ejectNodes.any (fun node => strSliceContains status.nodes node) = true →
        pollStep ejectNodes { status := some status, nodesRead := nr } (.running s2 c)
          = .running (recSleep status) 0) := by
  constructor
  · simpa using pollRun_obs_stuck_iff ejectNodes inputs hobs 0 (by omega) s
  · intro status nr s2 c hact
    simp [pollStep, hact]

/-- Witness for the amended C1: twelve consecutive observations fail stuck,
and an active status resets the counter. -/
theorem claim_C1_witness :
    pollRun ["ns_1@node1"]
      (List.replicate 12
        { status := some { recommendedRefreshPeriodNs := 0, nodes := [] },
          nodesRead := some [nodeA] })
      (.running 0 0) = .stuck
    ∧ pollStep ["ns_1@node1"]
        { status := some { recommendedRefreshPeriodNs := 0, nodes := ["ns_1@node1"] },
          nodesRead := none }
        (.running 0 5)
      = .running (recSleep { recommendedRefreshPeriodNs := 0, nodes := ["ns_1@node1"] }) 0 := by
  have h := claim_C1_amended ["ns_1@node1"]
    (List.replicate 12
      { status := some { recommendedRefreshPeriodNs := 0, nodes := [] },
        nodesRead := some [nodeA] })
    0 (by decide)
  exact ⟨h.1.mpr (by decide),
    h.2 { recommendedRefreshPeriodNs := 0, nodes := ["ns_1@node1"] } none 0 5 (by decide)⟩

/-- C5: the sleep before the next poll after a successful status poll is
the recommended interval converted to a duration and floored at the
2-second minimum; after a failed status poll the loop sleeps the fixed
500 ms and keeps polling rather than aborting, for arbitrarily many
consecutive failed polls. -/
theorem claim_C5_adaptive_sleep (ejectNodes : List String) (status : RebalanceStatus)
    (nr : Option (List Node)) (s : Int) (c : Nat) :
    (∀ s2 c2,
      pollStep ejectNodes { status := some status, nodesRead := nr } (.running s c)
          = .running s2 c2 → s2 = recSleep status)
    ∧ minSleepNs ≤ recSleep status
    ∧ (minSleepNs ≤ status.recommendedRefreshPeriodNs →
        recSleep status = status.recommendedRefreshPeriodNs)
    ∧ pollStep ejectNodes { status := none, nodesRead := nr } (.running s c)
        = .running failSleepNs c
    ∧ (∀ n, pollRun ejectNodes
        (List.replicate (n + 1) { status := none, nodesRead := nr }) (.running s c)
        = .running failSleepNs c) := by
  refine ⟨?_, ?_, ?_, rfl, ?_⟩
  · intro s2 c2 h
    by_cases hA : ejectNodes.any (fun node => strSliceContains status.nodes node)
    · simp [pollStep, hA] at h
      exact h.1.symm
    · cases nr with
      | none =>
        simp [pollStep, hA] at h
        exact h.1.symm
      | some nodes =>
        by_cases hB : nodes.any (fun node => strSliceContains ejectNodes node.otpNode)
        · by_cases hC : c > 10
          · simp [pollStep, hA, hB, hC] at h
          · simp [pollStep, hA, hB, hC] at h
            exact h.1.symm
        · simp [pollStep, hA, hB] at h
  · unfold recSleep
    split <;> omega
  · intro hge
    unfold recSleep
    rw [if_neg (by omega)]
  · intro n
    induction n generalizing s with
    | zero => rfl
    | succ m ih =>
      show pollRun ejectNodes
        ({ status := none, nodesRead := nr } :: List.replicate (m + 1)
          { status := none, nodesRead := nr }) (.running s c) = .running failSleepNs c
      rw [pollRun, List.foldl_cons]
      exact ih failSleepNs

/-- Witness for C5: a recommended interval of 3 s is kept, one of 0 is
floored to 2 s, and five consecutive failed polls leave the loop running on
the 500 ms backoff. -/
theorem claim_C5_witness :
    recSleep { recommendedRefreshPeriodNs := 3000000000, nodes := [] } = 3000000000
    ∧ pollStep ["x"] { status := none, nodesRead := none } (.running 0 3)
        = .running failSleepNs 3
    ∧ pollRun ["x"] (List.replicate 5 { status := none, nodesRead := none }) (.running 0 3)
        = .running failSleepNs 3 := by
  have h := claim_C5_adaptive_sleep ["x"]
    { recommendedRefreshPeriodNs := 3000000000, nodes := [] } none 0 3
  exact ⟨h.2.2.1 (by decide), h.2.2.2.1, h.2.2.2.2 4⟩

/-- `getInfo` (couchbase.go:301-308): the first node of the snapshot
flagged `ThisNode`, or the "No node info found" error. -/
def getInfo (nodes : List Node) : Except CbError Node :=
  match nodes.find? (fun nd => nd.thisNode) with
  | some nd => .ok nd
  | none => .error .selfNotFound

/-- `healthy` (couchbase.go:456-477) as a function of the topology-read
result: a failed read propagates; fewer than two nodes is "Node hasn't
joined the cluster yet"; then the self node must exist and its status
string must equal "healthy". -/
def healthy (nodesRes : Except CbError (List Node)) : Except CbError Unit :=
  match nodesRes with
  | .error e => .error e
  | .ok nodes =>
    if nodes.length < 2 then .error .notJoined
    else
      match getInfo nodes with
      | .error e => .error e
      | .ok info =>
        if info.status ≠ "healthy" then .error (.badStatus info.status)
        else .ok ()

/-- C6: the internal health check succeeds exactly when the topology read
succeeds with at least two nodes, a node flagged `ThisNode` exists, and
that self node's status string is exactly "healthy"; a single-node topology
or a self status such as "warmup" makes it fail. -/
theorem claim_C6_healthy_iff (nodesRes : Except CbError (List Node)) :
    healthy nodesRes = .ok () ↔
      ∃ nodes, nodesRes = .ok nodes ∧ 2 ≤ nodes.length ∧
        ∃ nd, nodes.find? (fun n => n.thisNode) = some nd ∧ nd.status = "healthy" := by
  cases nodesRes with
  | error e => simp [healthy]
  | ok nodes =>
    simp only [healthy, Except.ok.injEq, exists_eq_left']
    by_cases hlen : nodes.length < 2
    · have h2 : ¬(2 ≤ nodes.length) := by omega
      simp [hlen, h2]
    · have h2 : 2 ≤ nodes.length := by omega
      simp only [if_neg hlen, h2, true_and]
      cases hfind : nodes.find? (fun n => n.thisNode) with
      | none => simp [getInfo, hfind]
      | some nd =>
        by_cases hst : nd.status = "healthy"
        · simp [getInfo, hfind, hst]
        · simp [getInfo, hfind, hst]

/-- Witness for C6: a healthy two-node topology passes; a single-node view
and a warming-up self node fail. -/
theorem claim_C6_witness :
    healthy (.ok [nodeA, nodeB]) = .ok ()
    ∧ healthy (.ok [nodeA]) ≠ .ok ()
    ∧ healthy (.ok [{ nodeA with status := "warmup" }, nodeB]) ≠ .ok () := by
  refine ⟨(claim_C6_healthy_iff (.ok [nodeA, nodeB])).mpr
    ⟨[nodeA, nodeB], rfl, by decide, nodeA, rfl, rfl⟩, ?_, ?_⟩
  · intro h
    exact Except.noConfusion h
  · intro h
    exact Except.noConfusion h

/-- `Info` (couchbase.go:310-323) as one call on the cached `c.info` field:
given the current cache and the topology-read result that would be consumed
if a fetch happens, return the new cache, the call's result, and whether a
remote read was performed. -/
def infoCall (cache : Option Node) (fetch : Except CbError (List Node)) :
    Option Node × Except CbError Node × Bool :=
  match cache with
  | some nd => (some nd, .ok nd, false)
  | none =>
    match fetch with
    | .error e => (none, .error e, true)
    | .ok nodes =>
      match getInfo nodes with
      | .error e => (none, .error e, true)
      | .ok nd => (some nd, .ok nd, true)

/-- `Cluster` (couchbase.go:358-387) as one call on the cached `c.cluster`
field; the remote read, status check and JSON decode collapse into the
boundary result `fetch`. -/
def clusterCall (cache : Option Cluster) (fetch : Except CbError Cluster) :
    Option Cluster × Except CbError Cluster × Bool :=
  match cache with
  | some cl => (some cl, .ok cl, false)
  | none =>
    match fetch with
    | .error e => (none, .error e, true)
    | .ok cl => (some cl, .ok cl, true)

/-- C8: the self-node cache and the cluster-identity cache are each
populated at most once, on the first successful read: a populated cache is
returned as is with no remote read; a failed read (or a read with no
`ThisNode` entry) leaves the cache empty so the next call retries; a
successful first read populates the cache with the returned value. -/
theorem claim_C8_cache_once :
    (∀ (nd : Node) (fetch : Except CbError (List Node)),
      infoCall (some nd) fetch = (some nd, .ok nd, false))
    ∧ (∀ e, infoCall none (.error e) = (none, .error e, true))
    ∧ (∀ nodes e, getInfo nodes = .error e →
        infoCall none (.ok nodes) = (none, .error e, true))
    ∧ (∀ nodes nd, getInfo nodes = .ok nd →
        infoCall none (.ok nodes) = (some nd, .ok nd, true))
    ∧ (∀ (cl : Cluster) (fetch : Except CbError Cluster),
      clusterCall (some cl) fetch = (some cl, .ok cl, false))
    ∧ (∀ e, clusterCall none (.error e) = (none, .error e, true))
    ∧ (∀ cl, clusterCall none (.ok cl) = (some cl, .ok cl, true)) := by
  refine ⟨fun nd fetch => rfl, fun e => rfl, ?_, ?_,
    fun cl fetch => rfl, fun e => rfl, fun cl => rfl⟩
  · intro nodes e h
    simp [infoCall, h]
  · intro nodes nd h
    simp [infoCall, h]

/-- Witness for C8 at concrete caches and fetch results. -/
theorem claim_C8_witness :
    infoCall (some nodeA) (.error (.readFailed "boom")) = (some nodeA, .ok nodeA, false)
    ∧ infoCall none (.ok [nodeB]) = (none, .error .selfNotFound, true)
    ∧ infoCall none (.ok [nodeA, nodeB]) = (some nodeA, .ok nodeA, true)
    ∧ clusterCall none (.ok { isAdminCreds := true, isEnterprise := false, uuid := "u" })
        = (some { isAdminCreds := true, isEnterprise := false, uuid := "u" },
            .ok { isAdminCreds := true, isEnterprise := false, uuid := "u" }, true) := by
  have h := claim_C8_cache_once
  exact ⟨h.1 nodeA _, h.2.2.1 [nodeB] .selfNotFound rfl,
    h.2.2.2.1 [nodeA, nodeB] nodeA rfl, h.2.2.2.2.2.2 _⟩

/-- Discrete-time model of the select loop shared by `IsReady`
(couchbase.go:413-432) and `Healthy` (couchbase.go:435-454). Each iteration
enters a `select` racing a fresh `time.After(timeout)` — fresh because
`time.After` is invoked inside the loop body, so the timer restarts every
iteration — against the next tick of the fixed 1-second ticker created
before the loop, which becomes ready 1000 ms after the previous iteration
consumed a tick. With `timeoutMs < 1000` the timer fires first and the
timeout branch returns (`some false`); otherwise the tick fires first and
the k-th probe (`Ping` respectively `healthy`, modelled as instantaneous)
runs, returning `some true` on success or looping. `fuel` bounds the
iterations examined; `none` means the loop has not returned within `fuel`
iterations. -/
def selectLoop (timeoutMs : Nat) (probe : Nat → Bool) : Nat → Nat → Option Bool
  | _, 0 => none
  | k, fuel + 1 =>
    if timeoutMs < 1000 then some false
    else if probe k then some true
    else selectLoop timeoutMs probe (k + 1) fuel

/-- `IsReady` (couchbase.go:413-432): the probe is the success of
`c.Ping(rawURL)` at the k-th tick. -/
def IsReady (timeoutMs : Nat) (pingOk : Nat → Bool) (fuel : Nat) : Option Bool :=
  selectLoop timeoutMs pingOk 0 fuel

/-- `Healthy` (couchbase.go:435-454): the probe is `c.healthy()` returning
no error on the topology snapshot read at the k-th tick. -/
def Healthy (timeoutMs : Nat) (nodesAt : Nat → Except CbError (List Node)) (fuel : Nat) :
    Option Bool :=
  selectLoop timeoutMs
    (fun k =>
      match healthy (nodesAt k) with
      | .ok _ => true
      | .error _ => false)
    0 fuel

/-- With a timeout of at least one tick and a never-succeeding probe, the
select loop never returns: the restarted timer always loses the race
against the ticker. -/
theorem selectLoop_none (timeoutMs : Nat) (probe : Nat → Bool) (hT : 1000 ≤ timeoutMs)
    (hp : ∀ k, probe k = false) : ∀ fuel k, selectLoop timeoutMs probe k fuel = none := by
  intro fuel
  induction fuel with
  | zero =>
    intro k
    rfl
  | succ m ih =>
    intro k
    show (if timeoutMs < 1000 then some false
      else if probe k then some true else selectLoop timeoutMs probe (k + 1) m) = none
    rw [if_neg (by omega), hp k]
    simp [ih (k + 1)]

/-- C3 fails on the code: with a 5-second timeout and a probe that never
succeeds, neither `IsReady` nor `Healthy` ever returns, so in particular
neither produces its timeout error when 5 seconds of wall-clock time have
elapsed. The cause is that `time.After(timeout)` is re-invoked on every
loop iteration, so the 1-second tick always becomes ready first and the
timeout branch is never taken. -/
theorem claim_C3_never_times_out :
    (∀ fuel, IsReady 5000 (fun _ => false) fuel = none)
    ∧ (∀ fuel, Healthy 5000 (fun _ => .error (.readFailed "connection refused")) fuel = none) := by
  constructor
  · intro fuel
    exact selectLoop_none 5000 _ (by omega) (fun k => rfl) fuel 0
  · intro fuel
    exact selectLoop_none 5000 _ (by omega) (fun k => rfl) fuel 0

end Cbmgr
